import Mathlib

/-!
# The `google_compute_machine_type` data source

A shallow embedding of `google/data_source_google_compute_machine_type.go`:
the schema constructor `dataSourceGoogleComputeMachineType`, the read
operation `dataSourceGoogleComputeMachineTypeRead` and the two flatteners
`flattenMachineTypeScratchDisks` / `flattenMachineTypeAccelerators`.

Go values are modelled as follows.

* `int64` fields are `Int` (they are only copied, never computed with).
* A pointer `*T` is `Option T`; dereferencing `none` panics.
* A slice `[]T` is `GoSlice T`, which keeps the nil slice apart from an
  empty non-nil one.
* `map[string]interface{}` is an association list in the order of the map
  literal.
* `error` is `GoError`; a `nil` error is `none`.
* The resource data `d` is passed explicitly; every call the read operation
  makes on a collaborator (catalog lookup, `d.Set`, `d.SetId`, the not-found
  handler) is appended to a trace, so that "no call was made" is a statement
  about the trace.

Functions of other packages that the read operation calls
(`tpgresource.GenerateUserAgentString`, `tpgresource.GetProject`,
`tpgresource.GetZone`, `tpgresource.ConvertSelfLinkToV1`, the compute client,
`handleNotFoundError`) and the failure behaviour of `d.Set` are parameters,
collected in `Env`.

`dataSourceGoogleComputeMachineTypeRead` follows the source statement by
statement. For the proofs its thirteen `d.Set` statements are also listed as
data (`fieldWrites`) and run by `runWrites`; `read_eq_runWrites` shows that
this is the same function.
-/

namespace Google

/-! ## Go values -/

/-- A Go slice: the nil slice, or a (possibly empty) allocated one. -/
inductive GoSlice (α : Type) where
  | nil : GoSlice α
  | mk (elems : List α) : GoSlice α
deriving DecidableEq, Repr

/-- The elements of a slice; the nil slice has none. -/
def GoSlice.toList {α : Type} : GoSlice α → List α
  | .nil => []
  | .mk elems => elems

/-- Go's `len(s)`. -/
def GoSlice.len {α : Type} (s : GoSlice α) : Nat := s.toList.length

/-- Go's `s == nil`. -/
def GoSlice.isNil {α : Type} : GoSlice α → Bool
  | .nil => true
  | .mk _ => false

/-- The values stored inside a flattened map: `int64` or `string`. -/
inductive Prim where
  | int (i : Int)
  | str (s : String)
deriving DecidableEq, Repr

/-- A `map[string]interface{}` as written by a map literal. -/
abbrev GoMap := List (String × Prim)

/-- The keys of a map. -/
def GoMap.keys (m : GoMap) : List String := m.map Prod.fst

/-- The `interface{}` values that travel through `d.Get` / `d.Set`. -/
inductive Value where
  | nil
  | str (s : String)
  | int (i : Int)
  | bool (b : Bool)
  | maps (s : GoSlice GoMap)
deriving DecidableEq, Repr

/-- Whether a value is the zero value of its type (what `GetOk` tests). -/
def Value.isZero : Value → Bool
  | .nil => true
  | .str s => s == ""
  | .int i => i == 0
  | .bool b => !b
  | .maps s => s.len == 0

/-- A Go `error`: the text `Error()` returns, whether it is the catalog's
not-found signal, and the resource label a typed not-found error carries. -/
structure GoError where
  text : String
  notFound : Bool := false
  resource : Option String := none
deriving DecidableEq, Repr

/-- The error `fmt.Errorf` builds from an already formatted message. -/
def Errorf (msg : String) : GoError := { text := msg }

/-! ## The compute API records -/

/-- The record `compute.MachineTypeScratchDisks`. -/
structure MachineTypeScratchDisks where
  DiskGb : Int
deriving DecidableEq, Repr

/-- The record `compute.MachineTypeAccelerators`. -/
structure MachineTypeAccelerators where
  GuestAcceleratorCount : Int
  GuestAcceleratorType : String
deriving DecidableEq, Repr

/-- The fields of `compute.MachineType` that the data source reads. -/
structure MachineType where
  Name : String := ""
  Description : String := ""
  GuestCpus : Int := 0
  MemoryMb : Int := 0
  ImageSpaceGb : Int := 0
  ScratchDisks : GoSlice (Option MachineTypeScratchDisks) := .nil
  MaximumPersistentDisks : Int := 0
  MaximumPersistentDisksSizeGb : Int := 0
  SelfLink : String := ""
  IsSharedCpu : Bool := false
  Accelerators : GoSlice (Option MachineTypeAccelerators) := .nil
deriving DecidableEq, Repr

/-! ## The flatteners -/

/-- The loop of `flattenMachineTypeScratchDisks`: entry `i` of the
preallocated slice is overwritten with the map built from `disks[i]`;
`none` is the nil-pointer panic of `disk.DiskGb`. -/
def flattenMachineTypeScratchDisksLoop :
    Nat → List (Option MachineTypeScratchDisks) → List GoMap → Option (List GoMap)
  | _, [], disksSchema => some disksSchema
  | _, none :: _, _ => none
  | i, some disk :: rest, disksSchema =>
      flattenMachineTypeScratchDisksLoop (i + 1) rest
        (disksSchema.set i [("disk_gb", Prim.int disk.DiskGb)])

/-- The function `flattenMachineTypeScratchDisks`; `make` allocates
`len(disks)` nil maps (empty association lists), the loop fills them.
The result is `none` when the function panics. -/
def flattenMachineTypeScratchDisks (disks : GoSlice (Option MachineTypeScratchDisks)) :
    Option (GoSlice GoMap) :=
  (flattenMachineTypeScratchDisksLoop 0 disks.toList (List.replicate disks.len [])).map GoSlice.mk

/-- The loop of `flattenMachineTypeAccelerators`. -/
def flattenMachineTypeAcceleratorsLoop :
    Nat → List (Option MachineTypeAccelerators) → List GoMap → Option (List GoMap)
  | _, [], acceleratorsSchema => some acceleratorsSchema
  | _, none :: _, _ => none
  | i, some accelerator :: rest, acceleratorsSchema =>
      flattenMachineTypeAcceleratorsLoop (i + 1) rest
        (acceleratorsSchema.set i
          [("guest_accelerator_count", Prim.int accelerator.GuestAcceleratorCount),
           ("guest_accelerator_type", Prim.str accelerator.GuestAcceleratorType)])

/-- The function `flattenMachineTypeAccelerators`. -/
def flattenMachineTypeAccelerators (accelerators : GoSlice (Option MachineTypeAccelerators)) :
    Option (GoSlice GoMap) :=
  (flattenMachineTypeAcceleratorsLoop 0 accelerators.toList
    (List.replicate accelerators.len [])).map GoSlice.mk

/-! ## Resource data, collaborators and the trace -/

/-- The part of `schema.ResourceData` the data source touches: the stored
fields (most recent write first) and the resource ID. -/
structure ResourceData where
  fields : List (String × Value) := []
  id : String := ""
deriving DecidableEq, Repr

/-- The stored value of a field, if any. -/
def ResourceData.get (d : ResourceData) (key : String) : Option Value :=
  d.fields.lookup key

/-- The SDK's `d.GetOk(key)`: the value, and whether it is set to a
non-zero value. -/
def ResourceData.GetOk (d : ResourceData) (key : String) : Value × Bool :=
  match d.get key with
  | none => (Value.nil, false)
  | some v => (v, !v.isZero)

/-- The SDK's `d.SetId(v)`. -/
def ResourceData.SetId (d : ResourceData) (v : String) : ResourceData :=
  { d with id := v }

/-- The SDK's `d.Set(key, value)`: `setError` decides whether the write
fails; a failed write stores nothing, a successful one stores the value. -/
def ResourceData.Set (setError : ResourceData → String → Value → Option GoError)
    (d : ResourceData) (key : String) (value : Value) : Option GoError × ResourceData :=
  match setError d key value with
  | some err => (some err, d)
  | none => (none, { d with fields := (key, value) :: d.fields })

/-- The collaborators of the read operation, which live outside this file. -/
structure Env where
  /-- The call `tpgresource.GenerateUserAgentString(d, config.UserAgent)`. -/
  GenerateUserAgentString : ResourceData → Except GoError String
  /-- The call `tpgresource.GetProject(d, config)`. -/
  GetProject : ResourceData → Except GoError String
  /-- The call `tpgresource.GetZone(d, config)`. -/
  GetZone : ResourceData → Except GoError String
  /-- The call `config.NewComputeClient(userAgent).MachineTypes.Get(project, zone, name).Do()`. -/
  MachineTypesGet : String → String → String → String → Except GoError MachineType
  /-- The function `tpgresource.ConvertSelfLinkToV1`. -/
  ConvertSelfLinkToV1 : String → String
  /-- The function `handleNotFoundError(err, d, resource)`; it may change `d`. -/
  handleNotFoundError : GoError → ResourceData → String → Option GoError × ResourceData
  /-- Whether a `d.Set` fails, and with which error. -/
  SetError : ResourceData → String → Value → Option GoError

/-- The calls the read operation makes, in the order it makes them. -/
inductive Event where
  | Get (userAgent project zone name : String)
  | NotFoundHandler (err : GoError) (resource : String)
  | Set (key : String) (value : Value) (err : Option GoError)
  | SetId (id : String)
deriving DecidableEq, Repr

/-- The resource data together with the calls made so far. -/
structure World where
  d : ResourceData
  trace : List Event := []
deriving DecidableEq, Repr

/-- How a call of the read operation ends: `return nil`, `return err`, or a
panic. -/
inductive Ret where
  | nil
  | err (e : GoError)
  | panic
deriving DecidableEq, Repr

/-- One `d.Set(key, value)` on the world, recorded in the trace. -/
def World.Set (env : Env) (w : World) (key : String) (value : Value) :
    Option GoError × World :=
  let r := w.d.Set env.SetError key value
  (r.1, { d := r.2, trace := w.trace ++ [Event.Set key value r.1] })

/-- The catalog lookup on the world, recorded in the trace. -/
def World.Get (env : Env) (w : World) (userAgent project zone name : String) :
    Except GoError MachineType × World :=
  (env.MachineTypesGet userAgent project zone name,
   { w with trace := w.trace ++ [Event.Get userAgent project zone name] })

/-- The call of `handleNotFoundError` on the world, recorded in the trace. -/
def World.handleNotFoundError (env : Env) (w : World) (err : GoError) (resource : String) :
    Option GoError × World :=
  let r := env.handleNotFoundError err w.d resource
  (r.1, { d := r.2, trace := w.trace ++ [Event.NotFoundHandler err resource] })

/-- One `d.SetId(id)` on the world, recorded in the trace. -/
def World.SetId (w : World) (id : String) : World :=
  { d := w.d.SetId id, trace := w.trace ++ [Event.SetId id] }

/-- A `return err` for an optional error. -/
def Ret.ofError : Option GoError → Ret
  | none => Ret.nil
  | some e => Ret.err e

/-! ## The read operation -/

/-- The function `dataSourceGoogleComputeMachineTypeRead`, statement by
statement. The argument `meta` is the provider configuration, whose calls are
in `env`. `m.(string)` panics when `m` is not a string; the arguments of a
call are evaluated before the call is made. -/
def dataSourceGoogleComputeMachineTypeRead (env : Env) (w : World) : Ret × World :=
  match env.GenerateUserAgentString w.d with
  | .error err => (Ret.err err, w)
  | .ok userAgent =>
  match env.GetProject w.d with
  | .error err => (Ret.err err, w)
  | .ok project =>
  match env.GetZone w.d with
  | .error err =>
      (Ret.err (Errorf ("Please specify zone to get appropriate machine types for zone. Unable to get zone: " ++ err.text)), w)
  | .ok zone =>
  match w.d.GetOk "machine_type" with
  | (_, false) => (Ret.err (Errorf "Please specify machine_type to get machine type details"), w)
  | (m, true) =>
  match m with
  | Value.nil | Value.int _ | Value.bool _ | Value.maps _ => (Ret.panic, w)
  | Value.str m =>
  match w.Get env userAgent project zone m with
  | (.error err, w) =>
      let r := w.handleNotFoundError env err ("Machine Type " ++ m)
      (Ret.ofError r.1, r.2)
  | (.ok machineType, w) =>
  match w.Set env "project" (Value.str project) with
  | (some err, w) => (Ret.err (Errorf ("Error setting project: " ++ err.text)), w)
  | (none, w) =>
  match w.Set env "name" (Value.str machineType.Name) with
  | (some err, w) => (Ret.err (Errorf ("Error setting name: " ++ err.text)), w)
  | (none, w) =>
  match w.Set env "description" (Value.str machineType.Description) with
  | (some err, w) => (Ret.err (Errorf ("Error setting description: " ++ err.text)), w)
  | (none, w) =>
  match w.Set env "guest_cpus" (Value.int machineType.GuestCpus) with
  | (some err, w) => (Ret.err (Errorf ("Error setting guest_cpus: " ++ err.text)), w)
  | (none, w) =>
  match w.Set env "memory_mb" (Value.int machineType.MemoryMb) with
  | (some err, w) => (Ret.err (Errorf ("Error setting memory_mb: " ++ err.text)), w)
  | (none, w) =>
  match w.Set env "image_space_gb" (Value.int machineType.ImageSpaceGb) with
  | (some err, w) => (Ret.err (Errorf ("Error setting image_space_gb: " ++ err.text)), w)
  | (none, w) =>
  match flattenMachineTypeScratchDisks machineType.ScratchDisks with
  | none => (Ret.panic, w)
  | some disksSchema =>
  match w.Set env "scratch_disks" (Value.maps disksSchema) with
  | (some err, w) => (Ret.err (Errorf ("Error setting scratch_disks: " ++ err.text)), w)
  | (none, w) =>
  match w.Set env "maximum_persistent_disks" (Value.int machineType.MaximumPersistentDisks) with
  | (some err, w) => (Ret.err (Errorf ("Error setting maxium_persistent_disks: " ++ err.text)), w)
  | (none, w) =>
  match w.Set env "maximum_persistent_disks_size_gb" (Value.int machineType.MaximumPersistentDisksSizeGb) with
  | (some err, w) => (Ret.err (Errorf ("Error setting maxium_persistent_disks_size_gb: " ++ err.text)), w)
  | (none, w) =>
  match w.Set env "zone" (Value.str zone) with
  | (some err, w) => (Ret.err (Errorf ("Error setting zone: " ++ err.text)), w)
  | (none, w) =>
  match w.Set env "self_link" (Value.str (env.ConvertSelfLinkToV1 machineType.SelfLink)) with
  | (some err, w) => (Ret.err (Errorf ("Error setting self_link: " ++ err.text)), w)
  | (none, w) =>
  match w.Set env "is_shared_cpu" (Value.bool machineType.IsSharedCpu) with
  | (some err, w) => (Ret.err (Errorf ("Error setting is_shared_cpu: " ++ err.text)), w)
  | (none, w) =>
  match flattenMachineTypeAccelerators machineType.Accelerators with
  | none => (Ret.panic, w)
  | some acceleratorsSchema =>
  match w.Set env "accelerators" (Value.maps acceleratorsSchema) with
  | (some err, w) => (Ret.err (Errorf ("Error setting accelerators: " ++ err.text)), w)
  | (none, w) =>
  (Ret.nil,
   w.SetId ("projects/" ++ project ++ "/zones/" ++ zone ++ "/machineTypes/" ++ machineType.Name))

/-! ## The schema -/

/-- The SDK's `schema.ValueType`, as far as the data source needs it. -/
inductive ValueType where
  | TypeBool
  | TypeInt
  | TypeString
  | TypeList
deriving DecidableEq, Repr

/-- The fields of `schema.Schema` that the data source sets; a field left
out of a Go literal is `false`. -/
structure Schema where
  Type_ : ValueType
  Optional : Bool := false
  Required : Bool := false
  Computed : Bool := false
deriving DecidableEq, Repr

/-- The SDK's `schema.Resource`: the read function and the schema map. -/
structure Resource where
  Read : Env → World → Ret × World
  Schema : List (String × Schema)

/-- The function `dataSourceGoogleComputeMachineType`. -/
def dataSourceGoogleComputeMachineType : Resource :=
  { Read := dataSourceGoogleComputeMachineTypeRead
    Schema :=
      [("project", { Type_ := ValueType.TypeString, Optional := true, Computed := true }),
       ("zone", { Type_ := ValueType.TypeString, Optional := true, Computed := true }),
       ("machine_type", { Type_ := ValueType.TypeString, Computed := true })] }

/-- The schema declared for a key, if any. -/
def Resource.schemaOf (r : Resource) (key : String) : Option Google.Schema :=
  r.Schema.lookup key

/-- The keys the schema declares. -/
def Resource.keys (r : Resource) : List String :=
  r.Schema.map Prod.fst

/-! ## Auxiliary definitions -/

/-- Whether an event is a call of `d.SetId`. -/
def Event.isSetId : Event → Bool
  | .SetId _ => true
  | _ => false

/-- Whether an event is a `d.Set` that returned no error. -/
def Event.isSetOk : Event → Bool
  | .Set _ _ none => true
  | _ => false

/-- The keys of the `d.Set` calls of a trace, in call order. -/
def writtenKeys : List Event → List String
  | [] => []
  | .Set key _ _ :: rest => key :: writtenKeys rest
  | _ :: rest => writtenKeys rest

/-- Modelled from the spec: `handleNotFoundError`, whose source is not part
of this file. Section 4.2: on a not-found condition the caller gets a typed
not-found error tagged with the label of the resource that was looked up;
any other failure is surfaced unmodified. The resource data is left alone. -/
def handleNotFoundErrorSpec (err : GoError) (d : ResourceData) (resource : String) :
    Option GoError × ResourceData :=
  if err.notFound then (some { err with resource := some resource }, d) else (some err, d)

/-- An example environment: fixed user agent, project `my-proj`, zone
`us-central1-a`, a catalog given by `catalog`, and a `d.Set` that fails
exactly on the key `failing`. -/
def exampleEnv (catalog : String → Except GoError MachineType) (failing : Option String) : Env :=
  { GenerateUserAgentString := fun _ => .ok "Terraform"
    GetProject := fun _ => .ok "my-proj"
    GetZone := fun _ => .ok "us-central1-a"
    MachineTypesGet := fun _ _ _ name => catalog name
    ConvertSelfLinkToV1 := fun link => link
    handleNotFoundError := handleNotFoundErrorSpec
    SetError := fun _ key _ => if failing = some key then some (Errorf "boom") else none }

/-- The catalog record of the spec's example. -/
def exampleMachineType : MachineType :=
  { Name := "n1-standard-4", GuestCpus := 4, MemoryMb := 15360,
    ScratchDisks := GoSlice.mk [], Accelerators := GoSlice.mk [] }

/-- Resource data in which only `machine_type` is configured. -/
def exampleData : ResourceData :=
  { fields := [("machine_type", Value.str "n1-standard-4")] }

/-- One `d.Set` statement of the read operation: the key, the text its error
message puts before the cause, and the value (`none` when evaluating the
argument panics). -/
structure FieldWrite where
  key : String
  errText : String
  value : Option Value
deriving DecidableEq, Repr

/-- The thirteen `d.Set` statements of the read operation, in source order. -/
def fieldWrites (env : Env) (project zone : String) (machineType : MachineType) :
    List FieldWrite :=
  [⟨"project", "Error setting project: ", some (Value.str project)⟩,
   ⟨"name", "Error setting name: ", some (Value.str machineType.Name)⟩,
   ⟨"description", "Error setting description: ", some (Value.str machineType.Description)⟩,
   ⟨"guest_cpus", "Error setting guest_cpus: ", some (Value.int machineType.GuestCpus)⟩,
   ⟨"memory_mb", "Error setting memory_mb: ", some (Value.int machineType.MemoryMb)⟩,
   ⟨"image_space_gb", "Error setting image_space_gb: ", some (Value.int machineType.ImageSpaceGb)⟩,
   ⟨"scratch_disks", "Error setting scratch_disks: ",
      (flattenMachineTypeScratchDisks machineType.ScratchDisks).map Value.maps⟩,
   ⟨"maximum_persistent_disks", "Error setting maxium_persistent_disks: ",
      some (Value.int machineType.MaximumPersistentDisks)⟩,
   ⟨"maximum_persistent_disks_size_gb", "Error setting maxium_persistent_disks_size_gb: ",
      some (Value.int machineType.MaximumPersistentDisksSizeGb)⟩,
   ⟨"zone", "Error setting zone: ", some (Value.str zone)⟩,
   ⟨"self_link", "Error setting self_link: ",
      some (Value.str (env.ConvertSelfLinkToV1 machineType.SelfLink))⟩,
   ⟨"is_shared_cpu", "Error setting is_shared_cpu: ", some (Value.bool machineType.IsSharedCpu)⟩,
   ⟨"accelerators", "Error setting accelerators: ",
      (flattenMachineTypeAccelerators machineType.Accelerators).map Value.maps⟩]

/-- A run of `d.Set` statements: stop at the first panic or failed write. -/
def runWrites (env : Env) : List FieldWrite → World → Ret × World
  | [], w => (Ret.nil, w)
  | ⟨_, _, none⟩ :: _, w => (Ret.panic, w)
  | ⟨key, errText, some value⟩ :: rest, w =>
    match w.Set env key value with
    | (some err, w') => (Ret.err (Errorf (errText ++ err.text)), w')
    | (none, w') => runWrites env rest w'

/-- The end of the read operation: `d.SetId` when every write went through. -/
def finishRead (id : String) : Ret × World → Ret × World
  | (Ret.nil, w) => (Ret.nil, w.SetId id)
  | r => r

/-- The trace of a run of writes that all went through. -/
def writeEvents (ws : List FieldWrite) : List Event :=
  ws.filterMap (fun fw => fw.value.map (fun v => Event.Set fw.key v none))

/-- The fields stored by a run of writes that all went through, oldest first. -/
def writeFields (ws : List FieldWrite) : List (String × Value) :=
  ws.filterMap (fun fw => fw.value.map (fun v => (fw.key, v)))

/-- A catalog that knows every name and answers with `record`. -/
def constCatalog (record : MachineType) : String → Except GoError MachineType :=
  fun _ => .ok record

/-- A catalog that knows no machine type: every lookup ends in the
not-found signal. -/
def emptyCatalog : String → Except GoError MachineType :=
  fun _ => .error { text := "googleapi: Error 404: machine type not found", notFound := true }

/-- The example environment with a zone that cannot be resolved. -/
def noZoneEnv : Env :=
  { exampleEnv (constCatalog exampleMachineType) none with
    GetZone := fun _ => .error (Errorf "zone: required field is not set") }

/-! ## The flatteners are element-wise maps -/

/-- The loop of `flattenMachineTypeScratchDisks`, started at index `pre.length`
on a slice whose first entries `pre` are already filled, fills the remaining
entries from the non-nil inputs, in order. -/
theorem flattenMachineTypeScratchDisksLoop_eq (disks : List MachineTypeScratchDisks) :
    ∀ pre : List GoMap,
      flattenMachineTypeScratchDisksLoop pre.length (disks.map some)
          (pre ++ List.replicate disks.length []) =
        some (pre ++ disks.map (fun disk => [("disk_gb", Prim.int disk.DiskGb)])) := by
  induction disks with
  | nil => intro pre; simp [flattenMachineTypeScratchDisksLoop]
  | cons disk rest ih =>
    intro pre
    have h := ih (pre ++ [[("disk_gb", Prim.int disk.DiskGb)]])
    simp only [List.length_append, List.length_singleton, List.append_assoc,
      List.singleton_append] at h
    simp only [List.map_cons, List.length_cons, List.replicate_succ,
      flattenMachineTypeScratchDisksLoop]
    rw [List.set_append_right _ _ (Nat.le_refl _)]
    simpa using h

/-- The loop of `flattenMachineTypeAccelerators` fills the remaining entries
from the non-nil inputs, in order. -/
theorem flattenMachineTypeAcceleratorsLoop_eq (accelerators : List MachineTypeAccelerators) :
    ∀ pre : List GoMap,
      flattenMachineTypeAcceleratorsLoop pre.length (accelerators.map some)
          (pre ++ List.replicate accelerators.length []) =
        some (pre ++ accelerators.map (fun accelerator =>
          [("guest_accelerator_count", Prim.int accelerator.GuestAcceleratorCount),
           ("guest_accelerator_type", Prim.str accelerator.GuestAcceleratorType)])) := by
  induction accelerators with
  | nil => intro pre; simp [flattenMachineTypeAcceleratorsLoop]
  | cons accelerator rest ih =>
    intro pre
    have h := ih (pre ++ [[("guest_accelerator_count", Prim.int accelerator.GuestAcceleratorCount),
           ("guest_accelerator_type", Prim.str accelerator.GuestAcceleratorType)]])
    simp only [List.length_append, List.length_singleton, List.append_assoc,
      List.singleton_append] at h
    simp only [List.map_cons, List.length_cons, List.replicate_succ,
      flattenMachineTypeAcceleratorsLoop]
    rw [List.set_append_right _ _ (Nat.le_refl _)]
    simpa using h

/-- On non-nil entries `flattenMachineTypeScratchDisks` is the map of the
one-key literal. -/
theorem flattenMachineTypeScratchDisks_map (disks : List MachineTypeScratchDisks) :
    flattenMachineTypeScratchDisks (GoSlice.mk (disks.map some)) =
      some (GoSlice.mk (disks.map (fun disk => [("disk_gb", Prim.int disk.DiskGb)]))) := by
  have h := flattenMachineTypeScratchDisksLoop_eq disks []
  simp only [List.length_nil, List.nil_append] at h
  simp [flattenMachineTypeScratchDisks, GoSlice.toList, GoSlice.len, h]

/-- On non-nil entries `flattenMachineTypeAccelerators` is the map of the
two-key literal. -/
theorem flattenMachineTypeAccelerators_map (accelerators : List MachineTypeAccelerators) :
    flattenMachineTypeAccelerators (GoSlice.mk (accelerators.map some)) =
      some (GoSlice.mk (accelerators.map (fun accelerator =>
          [("guest_accelerator_count", Prim.int accelerator.GuestAcceleratorCount),
           ("guest_accelerator_type", Prim.str accelerator.GuestAcceleratorType)]))) := by
  have h := flattenMachineTypeAcceleratorsLoop_eq accelerators []
  simp only [List.length_nil, List.nil_append] at h
  simp [flattenMachineTypeAccelerators, GoSlice.toList, GoSlice.len, h]

/-! ## Steps of the read operation -/

/-- A `d.Set` returns an error exactly when the write fails; the world then
only gains the event. -/
theorem World.Set_eq_some (env : Env) (w w' : World) (key : String) (value : Value)
    (err : GoError) :
    w.Set env key value = (some err, w') ↔
      env.SetError w.d key value = some err ∧
        w' = { d := w.d, trace := w.trace ++ [Event.Set key value (some err)] } := by
  unfold World.Set ResourceData.Set
  cases h : env.SetError w.d key value <;> simp [eq_comm]
  intro h1; subst h1; rfl

/-- A `d.Set` returns nil exactly when the write goes through; the world then
gains the field and the event. -/
theorem World.Set_eq_none (env : Env) (w w' : World) (key : String) (value : Value) :
    w.Set env key value = (none, w') ↔
      env.SetError w.d key value = none ∧
        w' = { d := { w.d with fields := (key, value) :: w.d.fields },
               trace := w.trace ++ [Event.Set key value none] } := by
  unfold World.Set ResourceData.Set
  cases h : env.SetError w.d key value <;> simp [eq_comm]

/-- The lookup returns what the catalog returns; the world gains the event. -/
theorem World.Get_eq (env : Env) (w w' : World) (ua p z m : String)
    (r : Except GoError MachineType) :
    w.Get env ua p z m = (r, w') ↔
      env.MachineTypesGet ua p z m = r ∧
        w' = { w with trace := w.trace ++ [Event.Get ua p z m] } := by
  unfold World.Get
  simp [eq_comm]

/-- A list of non-nil pointers is a list of records, each behind a pointer. -/
theorem exists_map_some_of_ne_none {α : Type} (l : List (Option α)) (h : ∀ x ∈ l, x ≠ none) :
    ∃ xs : List α, l = xs.map some := by
  induction l with
  | nil => exact ⟨[], rfl⟩
  | cons a t ih =>
    obtain ⟨xs, hxs⟩ := ih (fun x hx => h x (List.mem_cons_of_mem _ hx))
    cases a with
    | none => exact absurd rfl (h none (List.mem_cons_self _ _))
    | some v => exact ⟨v :: xs, by simp [hxs]⟩

/-- A slice of non-nil scratch-disk entries is flattened without a panic. -/
theorem flattenMachineTypeScratchDisks_isSome (s : GoSlice (Option MachineTypeScratchDisks))
    (h : ∀ x ∈ s.toList, x ≠ none) : ∃ out, flattenMachineTypeScratchDisks s = some out := by
  obtain ⟨xs, hxs⟩ := exists_map_some_of_ne_none s.toList h
  have hm := flattenMachineTypeScratchDisks_map xs
  have hs : flattenMachineTypeScratchDisks s =
      flattenMachineTypeScratchDisks (GoSlice.mk (xs.map some)) := by
    simp only [flattenMachineTypeScratchDisks, GoSlice.len, hxs]
    simp [GoSlice.toList]
  exact ⟨_, hs.trans hm⟩

/-- A slice of non-nil accelerator entries is flattened without a panic. -/
theorem flattenMachineTypeAccelerators_isSome (s : GoSlice (Option MachineTypeAccelerators))
    (h : ∀ x ∈ s.toList, x ≠ none) : ∃ out, flattenMachineTypeAccelerators s = some out := by
  obtain ⟨xs, hxs⟩ := exists_map_some_of_ne_none s.toList h
  have hm := flattenMachineTypeAccelerators_map xs
  have hs : flattenMachineTypeAccelerators s =
      flattenMachineTypeAccelerators (GoSlice.mk (xs.map some)) := by
    simp only [flattenMachineTypeAccelerators, GoSlice.len, hxs]
    simp [GoSlice.toList]
  exact ⟨_, hs.trans hm⟩

/-- The missing-machine-type message is none of the missing-zone messages. -/
theorem missingMachineType_ne_missingZone (e : GoError) :
    "Please specify machine_type to get machine type details" ≠
      "Please specify zone to get appropriate machine types for zone. Unable to get zone: " ++
        e.text := by
  intro h
  have h2 := congrArg (fun s => s.data.get? 15) h
  simp [String.data_append] at h2

/-- Once the lookup has returned a record, the read operation is the run of
its thirteen writes followed by `d.SetId`. -/
theorem read_eq_runWrites (env : Env) (d : ResourceData) (ua p z m : String) (mt : MachineType)
    (hua : env.GenerateUserAgentString d = .ok ua) (hp : env.GetProject d = .ok p)
    (hz : env.GetZone d = .ok z) (hm : d.GetOk "machine_type" = (Value.str m, true))
    (hget : env.MachineTypesGet ua p z m = .ok mt) :
    dataSourceGoogleComputeMachineTypeRead env { d := d } =
      finishRead ("projects/" ++ p ++ "/zones/" ++ z ++ "/machineTypes/" ++ mt.Name)
        (runWrites env (fieldWrites env p z mt) { d := d, trace := [Event.Get ua p z m] }) := by
  simp only [dataSourceGoogleComputeMachineTypeRead, hua, hp, hz, hm, hget, World.Get,
    fieldWrites, runWrites, List.nil_append]
  repeat' (split <;> (try simp_all only [finishRead, runWrites, Option.map_some', Option.map_none']))

/-- The shape of every run of writes: a prefix `pre` of the writes went
through and is stored, and then either the list was exhausted, or the next
write failed, or evaluating the next argument panicked. The resource ID is
never touched. -/
theorem runWrites_shape (env : Env) : ∀ (ws : List FieldWrite) (w : World),
    ∃ pre rest, ws = pre ++ rest ∧ (∀ fw ∈ pre, fw.value ≠ none) ∧
      (runWrites env ws w).2.d =
        { fields := (writeFields pre).reverse ++ w.d.fields, id := w.d.id } ∧
      (((runWrites env ws w).1 = Ret.nil ∧ rest = [] ∧
          (runWrites env ws w).2.trace = w.trace ++ writeEvents pre) ∨
       (∃ fw post value err, rest = fw :: post ∧ fw.value = some value ∧
          env.SetError (runWrites env ws w).2.d fw.key value = some err ∧
          (runWrites env ws w).1 = Ret.err (Errorf (fw.errText ++ err.text)) ∧
          (runWrites env ws w).2.trace =
            w.trace ++ writeEvents pre ++ [Event.Set fw.key value (some err)]) ∨
       (∃ fw post, rest = fw :: post ∧ fw.value = none ∧
          (runWrites env ws w).1 = Ret.panic ∧
          (runWrites env ws w).2.trace = w.trace ++ writeEvents pre)) := by
  intro ws
  induction ws with
  | nil =>
    intro w
    exact ⟨[], [], rfl, by simp, by simp [runWrites, writeFields],
      Or.inl ⟨by simp [runWrites], rfl, by simp [runWrites, writeEvents]⟩⟩
  | cons fw ws ih =>
    intro w
    obtain ⟨key, errText, value⟩ := fw
    cases value with
    | none =>
      exact ⟨[], _, rfl, by simp, by simp [runWrites, writeFields],
        Or.inr (Or.inr ⟨_, _, rfl, rfl, by simp [runWrites], by simp [runWrites, writeEvents]⟩)⟩
    | some value =>
      cases hS : env.SetError w.d key value with
      | some err =>
        have hW : w.Set env key value =
            (some err, { d := w.d, trace := w.trace ++ [Event.Set key value (some err)] }) :=
          (World.Set_eq_some env w _ key value err).2 ⟨hS, rfl⟩
        exact ⟨[], _, rfl, by simp, by simp [runWrites, writeFields, hW],
          Or.inr (Or.inl ⟨_, _, value, err, rfl, rfl, by simpa [runWrites, hW] using hS,
            by simp [runWrites, hW], by simp [runWrites, writeEvents, hW]⟩)⟩
      | none =>
        have hW : w.Set env key value =
            (none, { d := { w.d with fields := (key, value) :: w.d.fields },
                     trace := w.trace ++ [Event.Set key value none] }) :=
          (World.Set_eq_none env w _ key value).2 ⟨hS, rfl⟩
        obtain ⟨pre, rest, hws, hpre, hd, hcases⟩ :=
          ih { d := { w.d with fields := (key, value) :: w.d.fields },
               trace := w.trace ++ [Event.Set key value none] }
        refine ⟨⟨key, errText, some value⟩ :: pre, rest, by simp [hws], ?_, ?_, ?_⟩
        · intro fw hfw
          rcases List.mem_cons.1 hfw with h | h
          · subst h; simp
          · exact hpre fw h
        · simp only [runWrites, hW, hd]
          simp [writeFields]
        · simp only [runWrites, hW]
          rcases hcases with ⟨h1, h2, h3⟩ | ⟨fw, post, v, err, h1, h2, h5, h3, h4⟩ | ⟨fw, post, h1, h2, h3, h4⟩
          · exact Or.inl ⟨h1, h2, by simp [h3, writeEvents]⟩
          · exact Or.inr (Or.inl ⟨fw, post, v, err, h1, h2, h5, h3, by simp [h4, writeEvents]⟩)
          · exact Or.inr (Or.inr ⟨fw, post, h1, h2, h3, by simp [h4, writeEvents]⟩)

/-- When the record holds no nil entry, every write of the read operation has
a value. -/
theorem fieldWrites_value_ne_none (env : Env) (p z : String) (mt : MachineType)
    (hsd : ∀ x ∈ mt.ScratchDisks.toList, x ≠ none)
    (hacc : ∀ x ∈ mt.Accelerators.toList, x ≠ none) :
    ∀ fw ∈ fieldWrites env p z mt, fw.value ≠ none := by
  obtain ⟨sd, hsd'⟩ := flattenMachineTypeScratchDisks_isSome _ hsd
  obtain ⟨acc, hacc'⟩ := flattenMachineTypeAccelerators_isSome _ hacc
  intro fw hfw
  simp only [fieldWrites, hsd', hacc', Option.map_some', List.mem_cons, List.mem_singleton,
    List.mem_nil_iff, or_false] at hfw
  rcases hfw with h | h | h | h | h | h | h | h | h | h | h | h | h <;> subst h <;> simp

/-- A successful run: resolution and lookup succeed, the record holds no nil
entry and no `d.Set` of the run fails. Then the read operation returns nil,
has stored the thirteen fields and set the ID, and its trace is the lookup,
the thirteen writes and the `d.SetId`. -/
theorem read_success (env : Env) (d : ResourceData) (ua p z m : String) (mt : MachineType)
    (hua : env.GenerateUserAgentString d = .ok ua) (hp : env.GetProject d = .ok p)
    (hz : env.GetZone d = .ok z) (hm : d.GetOk "machine_type" = (Value.str m, true))
    (hget : env.MachineTypesGet ua p z m = .ok mt)
    (hsd : ∀ x ∈ mt.ScratchDisks.toList, x ≠ none)
    (hacc : ∀ x ∈ mt.Accelerators.toList, x ≠ none)
    (hset : ∀ key value err, Event.Set key value (some err) ∉
      (dataSourceGoogleComputeMachineTypeRead env { d := d }).2.trace) :
    dataSourceGoogleComputeMachineTypeRead env { d := d } =
      (Ret.nil,
       { d := { fields := (writeFields (fieldWrites env p z mt)).reverse ++ d.fields,
                id := "projects/" ++ p ++ "/zones/" ++ z ++ "/machineTypes/" ++ mt.Name },
         trace := Event.Get ua p z m :: writeEvents (fieldWrites env p z mt) ++
           [Event.SetId ("projects/" ++ p ++ "/zones/" ++ z ++ "/machineTypes/" ++ mt.Name)] }) := by
  have hread := read_eq_runWrites env d ua p z m mt hua hp hz hm hget
  rw [hread] at hset ⊢
  obtain ⟨pre, rest, hws, hpre, hd, hcases⟩ :=
    runWrites_shape env (fieldWrites env p z mt) { d := d, trace := [Event.Get ua p z m] }
  rcases hR : runWrites env (fieldWrites env p z mt) { d := d, trace := [Event.Get ua p z m] }
    with ⟨r, w'⟩
  rw [hR] at hset hd hcases
  simp only at hd hcases
  rcases hcases with ⟨h1, h2, h3⟩ | ⟨fw, post, v, err, h1, h2, -, h3, h4⟩ | ⟨fw, post, h1, h2, h3, h4⟩
  · subst h1 h2
    simp only [List.append_nil] at hws
    subst hws
    obtain ⟨d', tr'⟩ := w'
    simp only at hd h3
    subst hd h3
    simp [finishRead, World.SetId, ResourceData.SetId]
  · subst h3
    exact absurd (by simp [finishRead, h4]) (hset fw.key v err)
  · have hmem : fw ∈ fieldWrites env p z mt := by rw [hws, h1]; simp
    exact absurd h2 (fieldWrites_value_ne_none env p z mt hsd hacc fw hmem)

/-! ## The trace and the stored fields of a run of writes -/

/-- The writes of a run are no `d.SetId`. -/
theorem writeEvents_filter_isSetId (ws : List FieldWrite) :
    (writeEvents ws).filter Event.isSetId = [] := by
  induction ws with
  | nil => rfl
  | cons fw ws ih =>
    obtain ⟨key, errText, value⟩ := fw
    cases value with
    | none => simpa [writeEvents] using ih
    | some v => simpa [writeEvents, Event.isSetId] using ih

/-- The writes of a run all went through. -/
theorem writeEvents_filter_isSetOk (ws : List FieldWrite) :
    (writeEvents ws).filter Event.isSetOk = writeEvents ws := by
  induction ws with
  | nil => rfl
  | cons fw ws ih =>
    obtain ⟨key, errText, value⟩ := fw
    cases value with
    | none => simpa [writeEvents] using ih
    | some v => simpa [writeEvents, Event.isSetOk] using ih

/-- When every write has a value there is one event per write. -/
theorem writeEvents_length (ws : List FieldWrite) (h : ∀ fw ∈ ws, fw.value ≠ none) :
    (writeEvents ws).length = ws.length := by
  induction ws with
  | nil => rfl
  | cons fw ws ih =>
    obtain ⟨key, errText, value⟩ := fw
    have ih2 := ih (fun x hx => h x (List.mem_cons_of_mem _ hx))
    cases value with
    | none => exact absurd rfl (h _ (List.mem_cons_self _ _))
    | some v => simpa [writeEvents] using ih2

/-- A successful write in the trace of a run is one of the stored fields. -/
theorem mem_writeFields_of_mem_writeEvents (ws : List FieldWrite) (k : String) (v : Value)
    (h : Event.Set k v none ∈ writeEvents ws) : (k, v) ∈ writeFields ws := by
  simp only [writeEvents, writeFields, List.mem_filterMap, Option.map_eq_some'] at h ⊢
  obtain ⟨fw, hfw, a, ha, he⟩ := h
  injection he with h1 h2 h3
  subst h1 h2
  exact ⟨fw, hfw, a, ha, rfl⟩

/-- No `d.SetId` among the writes of a run. -/
theorem setId_not_mem_writeEvents (ws : List FieldWrite) (id : String) :
    Event.SetId id ∉ writeEvents ws := by
  simp [writeEvents]

/-- No failed write among the writes of a run. -/
theorem failed_not_mem_writeEvents (ws : List FieldWrite) (k : String) (v : Value)
    (e : GoError) : Event.Set k v (some e) ∉ writeEvents ws := by
  simp [writeEvents]

/-- The keys stored by a run are among the keys of its writes, in order. -/
theorem writeFields_keys_sublist (ws : List FieldWrite) :
    ((writeFields ws).map Prod.fst).Sublist (ws.map FieldWrite.key) := by
  induction ws with
  | nil => simp [writeFields]
  | cons fw ws ih =>
    obtain ⟨key, errText, value⟩ := fw
    cases value with
    | none => simpa [writeFields] using List.Sublist.cons key ih
    | some v => simpa [writeFields] using List.Sublist.cons₂ key ih

/-- In an association list with distinct keys, stored in front of older
fields, every pair is what a lookup of its key finds. -/
theorem lookup_of_mem_nodup (l old : List (String × Value)) (k : String) (v : Value)
    (hn : (l.map Prod.fst).Nodup) (hm : (k, v) ∈ l) : (l ++ old).lookup k = some v := by
  induction l with
  | nil => simp at hm
  | cons a t ih =>
    obtain ⟨a1, a2⟩ := a
    simp only [List.map_cons, List.nodup_cons, List.mem_map, not_exists, not_and] at hn
    rcases List.mem_cons.1 hm with h | h
    · injection h with h1 h2
      subst h1 h2
      simp [List.lookup]
    · have hne : k ≠ a1 := by
        intro hk
        subst hk
        exact hn.1 (k, v) h rfl
      have hb : (k == a1) = false := by simpa using hne
      simp only [List.cons_append, List.lookup, hb]
      exact ih hn.2 h

/-- The thirteen keys the read operation writes, in source order. -/
theorem fieldWrites_keys (env : Env) (p z : String) (mt : MachineType) :
    (fieldWrites env p z mt).map FieldWrite.key =
      ["project", "name", "description", "guest_cpus", "memory_mb", "image_space_gb",
       "scratch_disks", "maximum_persistent_disks", "maximum_persistent_disks_size_gb",
       "zone", "self_link", "is_shared_cpu", "accelerators"] := rfl

/-- The read operation writes no key twice. -/
theorem fieldWrites_keys_nodup (env : Env) (p z : String) (mt : MachineType) :
    ((fieldWrites env p z mt).map FieldWrite.key).Nodup := by
  rw [fieldWrites_keys]
  decide

/-! ## The shape of a call of the read operation -/

/-- How a call of the read operation can go: it returns before the lookup
with nothing in its trace, or the lookup fails and the not-found handler is
called, or the lookup returns a record. -/
theorem read_cases (env : Env) (d : ResourceData) :
    (dataSourceGoogleComputeMachineTypeRead env { d := d }).2.trace = [] ∨
    (∃ ua p z m e, env.GenerateUserAgentString d = .ok ua ∧ env.GetProject d = .ok p ∧
      env.GetZone d = .ok z ∧ d.GetOk "machine_type" = (Value.str m, true) ∧
      env.MachineTypesGet ua p z m = .error e ∧
      (dataSourceGoogleComputeMachineTypeRead env { d := d }).2.trace =
        [Event.Get ua p z m, Event.NotFoundHandler e ("Machine Type " ++ m)]) ∨
    (∃ ua p z m mt, env.GenerateUserAgentString d = .ok ua ∧ env.GetProject d = .ok p ∧
      env.GetZone d = .ok z ∧ d.GetOk "machine_type" = (Value.str m, true) ∧
      env.MachineTypesGet ua p z m = .ok mt) := by
  cases hua : env.GenerateUserAgentString d with
  | error e => left; simp [dataSourceGoogleComputeMachineTypeRead, hua]
  | ok ua =>
  cases hp : env.GetProject d with
  | error e => left; simp [dataSourceGoogleComputeMachineTypeRead, hua, hp]
  | ok p =>
  cases hz : env.GetZone d with
  | error e => left; simp [dataSourceGoogleComputeMachineTypeRead, hua, hp, hz]
  | ok z =>
  rcases hgo : d.GetOk "machine_type" with ⟨v, b⟩
  cases b with
  | false => left; simp [dataSourceGoogleComputeMachineTypeRead, hua, hp, hz, hgo]
  | true =>
  cases v with
  | nil => left; simp [dataSourceGoogleComputeMachineTypeRead, hua, hp, hz, hgo]
  | int i => left; simp [dataSourceGoogleComputeMachineTypeRead, hua, hp, hz, hgo]
  | bool b => left; simp [dataSourceGoogleComputeMachineTypeRead, hua, hp, hz, hgo]
  | maps s => left; simp [dataSourceGoogleComputeMachineTypeRead, hua, hp, hz, hgo]
  | str m =>
  cases hget : env.MachineTypesGet ua p z m with
  | error e =>
    right; left
    exact ⟨ua, p, z, m, e, rfl, rfl, rfl, rfl, hget, by
      simp [dataSourceGoogleComputeMachineTypeRead, hua, hp, hz, hgo, hget, World.Get,
        World.handleNotFoundError]⟩
  | ok mt =>
    right; right
    exact ⟨ua, p, z, m, mt, rfl, rfl, rfl, rfl, hget⟩

/-- After a lookup that returned a record: a prefix `pre` of the thirteen
writes went through and is stored; then either all thirteen are done and the
ID is set last, or the next write failed and the read operation returned its
error at once, or evaluating the next argument panicked. In the last two
cases the ID is untouched. -/
theorem read_lookup_shape (env : Env) (d : ResourceData) (ua p z m : String) (mt : MachineType)
    (hua : env.GenerateUserAgentString d = .ok ua) (hp : env.GetProject d = .ok p)
    (hz : env.GetZone d = .ok z) (hm : d.GetOk "machine_type" = (Value.str m, true))
    (hget : env.MachineTypesGet ua p z m = .ok mt) :
    ∃ pre rest, fieldWrites env p z mt = pre ++ rest ∧ (∀ fw ∈ pre, fw.value ≠ none) ∧
      (dataSourceGoogleComputeMachineTypeRead env { d := d }).2.d.fields =
        (writeFields pre).reverse ++ d.fields ∧
      ((rest = [] ∧
          (dataSourceGoogleComputeMachineTypeRead env { d := d }).1 = Ret.nil ∧
          (dataSourceGoogleComputeMachineTypeRead env { d := d }).2.d.id =
            "projects/" ++ p ++ "/zones/" ++ z ++ "/machineTypes/" ++ mt.Name ∧
          (dataSourceGoogleComputeMachineTypeRead env { d := d }).2.trace =
            Event.Get ua p z m :: writeEvents pre ++
              [Event.SetId ("projects/" ++ p ++ "/zones/" ++ z ++ "/machineTypes/" ++ mt.Name)]) ∨
       (∃ fw post value err, rest = fw :: post ∧ fw.value = some value ∧
          env.SetError (dataSourceGoogleComputeMachineTypeRead env { d := d }).2.d fw.key value =
            some err ∧
          (dataSourceGoogleComputeMachineTypeRead env { d := d }).1 =
            Ret.err (Errorf (fw.errText ++ err.text)) ∧
          (dataSourceGoogleComputeMachineTypeRead env { d := d }).2.d.id = d.id ∧
          (dataSourceGoogleComputeMachineTypeRead env { d := d }).2.trace =
            Event.Get ua p z m :: writeEvents pre ++ [Event.Set fw.key value (some err)]) ∨
       (∃ fw post, rest = fw :: post ∧ fw.value = none ∧
          (dataSourceGoogleComputeMachineTypeRead env { d := d }).1 = Ret.panic ∧
          (dataSourceGoogleComputeMachineTypeRead env { d := d }).2.d.id = d.id ∧
          (dataSourceGoogleComputeMachineTypeRead env { d := d }).2.trace =
            Event.Get ua p z m :: writeEvents pre)) := by
  rw [read_eq_runWrites env d ua p z m mt hua hp hz hm hget]
  obtain ⟨pre, rest, hws, hpre, hd, hcases⟩ :=
    runWrites_shape env (fieldWrites env p z mt) { d := d, trace := [Event.Get ua p z m] }
  rcases hR : runWrites env (fieldWrites env p z mt) { d := d, trace := [Event.Get ua p z m] }
    with ⟨r, w'⟩
  rw [hR] at hd hcases
  simp only at hd hcases
  refine ⟨pre, rest, hws, hpre, ?_, ?_⟩
  · rcases hcases with ⟨h3, -, -⟩ | ⟨fw, post, v, err, -, -, -, h3, -⟩ | ⟨fw, post, -, -, h3, -⟩ <;>
      subst h3 <;> simp [finishRead, World.SetId, ResourceData.SetId, hd]
  · rcases hcases with ⟨h1, h2, h3⟩ | ⟨fw, post, v, err, h1, h2, h5, h3, h4⟩ | ⟨fw, post, h1, h2, h3, h4⟩
    · subst h1
      exact Or.inl ⟨h2, by simp [finishRead],
        by simp [finishRead, World.SetId, ResourceData.SetId],
        by simp [finishRead, World.SetId, h3]⟩
    · subst h3
      exact Or.inr (Or.inl ⟨fw, post, v, err, h1, h2, by simpa [finishRead] using h5,
        by simp [finishRead], by simp [finishRead, hd], by simp [finishRead, h4]⟩)
    · subst h3
      exact Or.inr (Or.inr ⟨fw, post, h1, h2, by simp [finishRead],
        by simp [finishRead, hd], by simp [finishRead, h4]⟩)

/-- When no `d.Set` can fail, the trace of the read operation holds no failed
write. -/
theorem no_failed_write_of_setError_none (env : Env) (d : ResourceData)
    (h : ∀ d' key value, env.SetError d' key value = none) :
    ∀ key value err, Event.Set key value (some err) ∉
      (dataSourceGoogleComputeMachineTypeRead env { d := d }).2.trace := by
  intro key value err hmem
  rcases read_cases env d with h0 | ⟨ua, p, z, m, e, -, -, -, -, -, htr⟩ |
    ⟨ua, p, z, m, mt, hua, hp, hz, hm, hget⟩
  · rw [h0] at hmem; simp at hmem
  · rw [htr] at hmem; simp at hmem
  · obtain ⟨pre, rest, -, -, -, hcases⟩ := read_lookup_shape env d ua p z m mt hua hp hz hm hget
    rcases hcases with ⟨-, -, -, htr⟩ | ⟨fw, post, v, e, -, -, hS, -, -, -⟩ | ⟨fw, post, -, -, -, -, htr⟩
    · rw [htr] at hmem
      simp [failed_not_mem_writeEvents] at hmem
    · rw [h] at hS; simp at hS
    · rw [htr] at hmem
      simp [failed_not_mem_writeEvents] at hmem

/-- A run whose trace holds thirteen successful writes is a successful run:
it returns nil and has set the ID, which ends in the name of the returned
record. -/
theorem read_of_thirteen_writes (env : Env) (d : ResourceData) (ua p z m : String)
    (mt : MachineType)
    (hua : env.GenerateUserAgentString d = .ok ua) (hp : env.GetProject d = .ok p)
    (hz : env.GetZone d = .ok z) (hm : d.GetOk "machine_type" = (Value.str m, true))
    (hget : env.MachineTypesGet ua p z m = .ok mt)
    (hwrites : ((dataSourceGoogleComputeMachineTypeRead env { d := d }).2.trace.filter
      Event.isSetOk).length = 13) :
    (dataSourceGoogleComputeMachineTypeRead env { d := d }).1 = Ret.nil ∧
      (dataSourceGoogleComputeMachineTypeRead env { d := d }).2.d.id =
        "projects/" ++ p ++ "/zones/" ++ z ++ "/machineTypes/" ++ mt.Name := by
  obtain ⟨pre, rest, hws, hpre, -, hcases⟩ :=
    read_lookup_shape env d ua p z m mt hua hp hz hm hget
  have hlen : pre.length + rest.length = 13 := by
    have := congrArg List.length hws
    simpa [fieldWrites] using this.symm
  have hwe := writeEvents_length pre hpre
  generalize dataSourceGoogleComputeMachineTypeRead env { d := d } = R at *
  rcases hcases with ⟨-, hret, hid, -⟩ |
    ⟨fw, post, v, err, hrest, -, -, -, -, htr⟩ | ⟨fw, post, hrest, -, -, -, htr⟩
  · exact ⟨hret, hid⟩
  · subst hrest
    simp only [List.length_cons] at hlen
    rw [htr] at hwrites
    simp [List.filter_cons, List.filter_append, writeEvents_filter_isSetOk, Event.isSetOk,
      hwe] at hwrites
    omega
  · subst hrest
    simp only [List.length_cons] at hlen
    rw [htr] at hwrites
    simp [List.filter_cons, writeEvents_filter_isSetOk, Event.isSetOk, hwe] at hwrites
    omega

/-! ## The claims -/

/-- C2: `flattenMachineTypeScratchDisks` and `flattenMachineTypeAccelerators`
are element-wise maps. On `N` non-nil entries the output is a non-nil slice of
exactly `N` entries, entry `i` is built from input entry `i` alone, in the
same order: a scratch-disk entry is the one-key map `disk_gb`, an accelerator
entry is the two-key map `guest_accelerator_count`, `guest_accelerator_type`.
A nil or empty input gives an empty output that is not nil. -/
theorem flatten_elementwise (disks : List MachineTypeScratchDisks)
    (accelerators : List MachineTypeAccelerators) :
    (∃ out, flattenMachineTypeScratchDisks (GoSlice.mk (disks.map some)) = some (GoSlice.mk out) ∧
      out.length = disks.length ∧
      (∀ i : Nat, out[i]? = (disks[i]?).map (fun (disk : MachineTypeScratchDisks) => [("disk_gb", Prim.int disk.DiskGb)])) ∧
      (∀ entry ∈ out, GoMap.keys entry = ["disk_gb"])) ∧
    (∃ out, flattenMachineTypeAccelerators (GoSlice.mk (accelerators.map some)) =
        some (GoSlice.mk out) ∧
      out.length = accelerators.length ∧
      (∀ i : Nat, out[i]? = (accelerators[i]?).map (fun (accelerator : MachineTypeAccelerators) =>
        [("guest_accelerator_count", Prim.int accelerator.GuestAcceleratorCount),
         ("guest_accelerator_type", Prim.str accelerator.GuestAcceleratorType)])) ∧
      (∀ entry ∈ out,
        GoMap.keys entry = ["guest_accelerator_count", "guest_accelerator_type"])) ∧
    flattenMachineTypeScratchDisks GoSlice.nil = some (GoSlice.mk []) ∧
    flattenMachineTypeScratchDisks (GoSlice.mk []) = some (GoSlice.mk []) ∧
    flattenMachineTypeAccelerators GoSlice.nil = some (GoSlice.mk []) ∧
    flattenMachineTypeAccelerators (GoSlice.mk []) = some (GoSlice.mk []) ∧
    (GoSlice.mk ([] : List GoMap)).isNil = false ∧
    (GoSlice.mk ([] : List GoMap)).len = 0 := by
  refine ⟨⟨_, flattenMachineTypeScratchDisks_map disks, by simp, by simp, ?_⟩,
    ⟨_, flattenMachineTypeAccelerators_map accelerators, by simp, by simp, ?_⟩,
    rfl, rfl, rfl, rfl, rfl, rfl⟩
  · intro entry h
    obtain ⟨disk, -, rfl⟩ := List.mem_map.1 h
    rfl
  · intro entry h
    obtain ⟨accelerator, -, rfl⟩ := List.mem_map.1 h
    rfl

/-- C2, on two scratch disks and one accelerator. -/
theorem flatten_elementwise_witness :
    flattenMachineTypeScratchDisks (GoSlice.mk [some ⟨375⟩, some ⟨750⟩]) =
      some (GoSlice.mk [[("disk_gb", Prim.int 375)], [("disk_gb", Prim.int 750)]]) ∧
    flattenMachineTypeAccelerators (GoSlice.mk [some ⟨8, "nvidia-tesla-a100"⟩]) =
      some (GoSlice.mk [[("guest_accelerator_count", Prim.int 8),
        ("guest_accelerator_type", Prim.str "nvidia-tesla-a100")]]) := by
  obtain ⟨⟨out, h1, -, h3, -⟩, ⟨out2, h4, -, h6, -⟩, -⟩ :=
    flatten_elementwise [⟨375⟩, ⟨750⟩] [⟨8, "nvidia-tesla-a100"⟩]
  have ha : out = [[("disk_gb", Prim.int 375)], [("disk_gb", Prim.int 750)]] := by
    apply List.ext_getElem?
    intro i
    rw [h3 i]
    rcases i with _ | _ | i <;> simp
  have hb : out2 = [[("guest_accelerator_count", Prim.int 8),
        ("guest_accelerator_type", Prim.str "nvidia-tesla-a100")]] := by
    apply List.ext_getElem?
    intro i
    rw [h6 i]
    rcases i with _ | i <;> simp
  subst ha hb
  exact ⟨h1, h4⟩

/-- C3: when user-agent generation and project resolution succeed and zone
resolution fails with error `e`, the read operation returns the error whose
message is "Please specify zone to get appropriate machine types for zone.
Unable to get zone: " followed by the text of `e`; its trace is empty (no
catalog lookup, no `d.Set`, no `d.SetId`) and the resource data is unchanged. -/
theorem read_missing_zone (env : Env) (d : ResourceData) (ua p : String) (e : GoError)
    (hua : env.GenerateUserAgentString d = .ok ua) (hp : env.GetProject d = .ok p)
    (hz : env.GetZone d = .error e) :
    (dataSourceGoogleComputeMachineTypeRead env { d := d }).1 =
        Ret.err (Errorf ("Please specify zone to get appropriate machine types for zone. Unable to get zone: " ++ e.text)) ∧
      (dataSourceGoogleComputeMachineTypeRead env { d := d }).2.trace = [] ∧
      (dataSourceGoogleComputeMachineTypeRead env { d := d }).2.d = d := by
  simp [dataSourceGoogleComputeMachineTypeRead, hua, hp, hz]

/-- C3, in the example environment without a zone. -/
theorem read_missing_zone_witness :
    (dataSourceGoogleComputeMachineTypeRead noZoneEnv { d := exampleData }).1 =
        Ret.err (Errorf ("Please specify zone to get appropriate machine types for zone. Unable to get zone: " ++ "zone: required field is not set")) ∧
      (dataSourceGoogleComputeMachineTypeRead noZoneEnv { d := exampleData }).2.trace = [] ∧
      (dataSourceGoogleComputeMachineTypeRead noZoneEnv { d := exampleData }).2.d = exampleData :=
  read_missing_zone noZoneEnv exampleData "Terraform" "my-proj"
    (Errorf "zone: required field is not set") rfl rfl rfl

/-- C4: when project and zone resolve and `GetOk("machine_type")` reports
not-ok (the field is absent, or set to the empty string), the read operation
returns the error with the exact message "Please specify machine_type to get
machine type details", which is none of the missing-zone messages; its trace
is empty (no catalog lookup, no `d.Set`, no `d.SetId`) and the resource data
is unchanged. -/
theorem read_missing_machine_type (env : Env) (d : ResourceData) (ua p z : String)
    (hua : env.GenerateUserAgentString d = .ok ua) (hp : env.GetProject d = .ok p)
    (hz : env.GetZone d = .ok z) (hm : (d.GetOk "machine_type").2 = false) :
    (dataSourceGoogleComputeMachineTypeRead env { d := d }).1 =
        Ret.err (Errorf "Please specify machine_type to get machine type details") ∧
      (dataSourceGoogleComputeMachineTypeRead env { d := d }).2.trace = [] ∧
      (dataSourceGoogleComputeMachineTypeRead env { d := d }).2.d = d ∧
      (∀ e : GoError, "Please specify machine_type to get machine type details" ≠
        "Please specify zone to get appropriate machine types for zone. Unable to get zone: " ++ e.text) ∧
      (∀ fields id, (ResourceData.GetOk ⟨("machine_type", Value.str "") :: fields, id⟩
        "machine_type").2 = false) ∧
      (∀ d' : ResourceData, d'.get "machine_type" = none → (d'.GetOk "machine_type").2 = false) := by
  have hread : dataSourceGoogleComputeMachineTypeRead env { d := d } =
      (Ret.err (Errorf "Please specify machine_type to get machine type details"), { d := d }) := by
    cases hgo : d.GetOk "machine_type" with
    | mk v b =>
      rw [hgo] at hm
      simp only at hm
      subst hm
      simp [dataSourceGoogleComputeMachineTypeRead, hua, hp, hz, hgo]
  refine ⟨by rw [hread], by rw [hread], by rw [hread], missingMachineType_ne_missingZone, ?_, ?_⟩
  · intro fields id
    simp [ResourceData.GetOk, ResourceData.get, List.lookup, Value.isZero]
  · intro d' h
    simp [ResourceData.GetOk, h]

/-- C4, on resource data whose `machine_type` is the empty string. -/
theorem read_missing_machine_type_witness :
    (dataSourceGoogleComputeMachineTypeRead (exampleEnv (constCatalog exampleMachineType) none)
        { d := { fields := [("machine_type", Value.str "")] } }).1 =
      Ret.err (Errorf "Please specify machine_type to get machine type details") ∧
    (dataSourceGoogleComputeMachineTypeRead (exampleEnv (constCatalog exampleMachineType) none)
        { d := { fields := [("machine_type", Value.str "")] } }).2.trace = [] :=
  have h := read_missing_machine_type (exampleEnv (constCatalog exampleMachineType) none)
    { fields := [("machine_type", Value.str "")] } "Terraform" "my-proj" "us-central1-a"
    rfl rfl rfl (by decide)
  ⟨h.1, h.2.1⟩

/-- C5: when project, zone and `machine_type` `m` resolve and the lookup
fails with error `e`, the read operation makes the one lookup, hands `e`, the
untouched resource data and the label "Machine Type " followed by `m` to the
not-found handler, and returns what the handler returns, with the resource
data the handler leaves; it writes no field and sets no ID itself. With the
handler of the spec and `e` the not-found signal, the result is an error
tagged with that label, which ends in the literal `m`, and the resource data
is unchanged. -/
theorem read_lookup_failure (env : Env) (d : ResourceData) (ua p z m : String) (e : GoError)
    (hua : env.GenerateUserAgentString d = .ok ua) (hp : env.GetProject d = .ok p)
    (hz : env.GetZone d = .ok z) (hm : d.GetOk "machine_type" = (Value.str m, true))
    (hget : env.MachineTypesGet ua p z m = .error e) :
    dataSourceGoogleComputeMachineTypeRead env { d := d } =
        (Ret.ofError (env.handleNotFoundError e d ("Machine Type " ++ m)).1,
         { d := (env.handleNotFoundError e d ("Machine Type " ++ m)).2,
           trace := [Event.Get ua p z m, Event.NotFoundHandler e ("Machine Type " ++ m)] }) ∧
      (env.handleNotFoundError = handleNotFoundErrorSpec → e.notFound = true →
        (dataSourceGoogleComputeMachineTypeRead env { d := d }).1 =
            Ret.err { e with resource := some ("Machine Type " ++ m) } ∧
          (dataSourceGoogleComputeMachineTypeRead env { d := d }).2.d = d) := by
  have hread : dataSourceGoogleComputeMachineTypeRead env { d := d } =
        (Ret.ofError (env.handleNotFoundError e d ("Machine Type " ++ m)).1,
         { d := (env.handleNotFoundError e d ("Machine Type " ++ m)).2,
           trace := [Event.Get ua p z m, Event.NotFoundHandler e ("Machine Type " ++ m)] }) := by
    simp [dataSourceGoogleComputeMachineTypeRead, hua, hp, hz, hm, hget, World.Get,
      World.handleNotFoundError]
  refine ⟨hread, ?_⟩
  intro hh hnf
  rw [hread, hh]
  simp [handleNotFoundErrorSpec, hnf, Ret.ofError]

/-- C5, on a catalog that does not know `n1-standard-4`. -/
theorem read_lookup_failure_witness :
    (dataSourceGoogleComputeMachineTypeRead (exampleEnv emptyCatalog none)
        { d := exampleData }).1 =
      Ret.err { text := "googleapi: Error 404: machine type not found", notFound := true,
                resource := some "Machine Type n1-standard-4" } ∧
    (dataSourceGoogleComputeMachineTypeRead (exampleEnv emptyCatalog none)
        { d := exampleData }).2.d = exampleData :=
  (read_lookup_failure (exampleEnv emptyCatalog none) exampleData "Terraform" "my-proj"
    "us-central1-a" "n1-standard-4"
    { text := "googleapi: Error 404: machine type not found", notFound := true }
    rfl rfl rfl (by decide) rfl).2 rfl rfl

/-- C1: when project `p`, zone `z` and `machine_type` `m` resolve, the lookup
for `(p, z, m)` returns the matching catalog entry, that is a record named
`m`, and all thirteen field writes succeed, the read operation returns no
error and sets the resource ID to exactly
"projects/" ++ p ++ "/zones/" ++ z ++ "/machineTypes/" ++ m. -/
theorem read_sets_id (env : Env) (d : ResourceData) (ua p z m : String) (mt : MachineType)
    (hua : env.GenerateUserAgentString d = .ok ua) (hp : env.GetProject d = .ok p)
    (hz : env.GetZone d = .ok z) (hm : d.GetOk "machine_type" = (Value.str m, true))
    (hget : env.MachineTypesGet ua p z m = .ok mt) (hname : mt.Name = m)
    (hwrites : ((dataSourceGoogleComputeMachineTypeRead env { d := d }).2.trace.filter
      Event.isSetOk).length = 13) :
    (dataSourceGoogleComputeMachineTypeRead env { d := d }).1 = Ret.nil ∧
      (dataSourceGoogleComputeMachineTypeRead env { d := d }).2.d.id =
        "projects/" ++ p ++ "/zones/" ++ z ++ "/machineTypes/" ++ m := by
  have h := read_of_thirteen_writes env d ua p z m mt hua hp hz hm hget hwrites
  rw [hname] at h
  exact h

/-- C1, on the example of the spec: project `my-proj`, zone `us-central1-a`
and `machine_type` `n1-standard-4` give the ID
`projects/my-proj/zones/us-central1-a/machineTypes/n1-standard-4`. -/
theorem read_sets_id_witness :
    ((dataSourceGoogleComputeMachineTypeRead (exampleEnv (constCatalog exampleMachineType) none)
        { d := exampleData }).2.trace.filter Event.isSetOk).length = 13 ∧
      (dataSourceGoogleComputeMachineTypeRead (exampleEnv (constCatalog exampleMachineType) none)
        { d := exampleData }).1 = Ret.nil ∧
      (dataSourceGoogleComputeMachineTypeRead (exampleEnv (constCatalog exampleMachineType) none)
        { d := exampleData }).2.d.id =
        "projects/my-proj/zones/us-central1-a/machineTypes/n1-standard-4" := by
  have h := read_sets_id (exampleEnv (constCatalog exampleMachineType) none)
    exampleData "Terraform" "my-proj" "us-central1-a" "n1-standard-4" exampleMachineType
    rfl rfl rfl (by decide) rfl rfl (by decide)
  refine ⟨by decide, h.1, h.2.trans ?_⟩
  decide

/-- C6: when project `p`, zone `z` and `machine_type` `m` resolve, the lookup
returns a record `mt` without nil entries and no write fails, the read
operation returns no error and every output field is a copy: `project` is
`p`, `zone` is `z`, the scalar fields are the fields of `mt`, `self_link` is
`ConvertSelfLinkToV1` of `mt.SelfLink`, and `scratch_disks`, `accelerators`
are what the two flatteners return on `mt.ScratchDisks`, `mt.Accelerators`. -/
theorem read_copies_fields (env : Env) (d : ResourceData) (ua p z m : String)
    (mt : MachineType)
    (hua : env.GenerateUserAgentString d = .ok ua) (hp : env.GetProject d = .ok p)
    (hz : env.GetZone d = .ok z) (hm : d.GetOk "machine_type" = (Value.str m, true))
    (hget : env.MachineTypesGet ua p z m = .ok mt)
    (hsd : ∀ x ∈ mt.ScratchDisks.toList, x ≠ none)
    (hacc : ∀ x ∈ mt.Accelerators.toList, x ≠ none)
    (hset : ∀ key value err, Event.Set key value (some err) ∉
      (dataSourceGoogleComputeMachineTypeRead env { d := d }).2.trace) :
    (dataSourceGoogleComputeMachineTypeRead env { d := d }).1 = Ret.nil ∧
    ∃ disksSchema acceleratorsSchema,
      flattenMachineTypeScratchDisks mt.ScratchDisks = some disksSchema ∧
      flattenMachineTypeAccelerators mt.Accelerators = some acceleratorsSchema ∧
      (dataSourceGoogleComputeMachineTypeRead env { d := d }).2.d.get "project" =
        some (Value.str p) ∧
      (dataSourceGoogleComputeMachineTypeRead env { d := d }).2.d.get "zone" =
        some (Value.str z) ∧
      (dataSourceGoogleComputeMachineTypeRead env { d := d }).2.d.get "name" =
        some (Value.str mt.Name) ∧
      (dataSourceGoogleComputeMachineTypeRead env { d := d }).2.d.get "description" =
        some (Value.str mt.Description) ∧
      (dataSourceGoogleComputeMachineTypeRead env { d := d }).2.d.get "guest_cpus" =
        some (Value.int mt.GuestCpus) ∧
      (dataSourceGoogleComputeMachineTypeRead env { d := d }).2.d.get "memory_mb" =
        some (Value.int mt.MemoryMb) ∧
      (dataSourceGoogleComputeMachineTypeRead env { d := d }).2.d.get "image_space_gb" =
        some (Value.int mt.ImageSpaceGb) ∧
      (dataSourceGoogleComputeMachineTypeRead env { d := d }).2.d.get "maximum_persistent_disks" =
        some (Value.int mt.MaximumPersistentDisks) ∧
      (dataSourceGoogleComputeMachineTypeRead env { d := d }).2.d.get
          "maximum_persistent_disks_size_gb" =
        some (Value.int mt.MaximumPersistentDisksSizeGb) ∧
      (dataSourceGoogleComputeMachineTypeRead env { d := d }).2.d.get "is_shared_cpu" =
        some (Value.bool mt.IsSharedCpu) ∧
      (dataSourceGoogleComputeMachineTypeRead env { d := d }).2.d.get "self_link" =
        some (Value.str (env.ConvertSelfLinkToV1 mt.SelfLink)) ∧
      (dataSourceGoogleComputeMachineTypeRead env { d := d }).2.d.get "scratch_disks" =
        some (Value.maps disksSchema) ∧
      (dataSourceGoogleComputeMachineTypeRead env { d := d }).2.d.get "accelerators" =
        some (Value.maps acceleratorsSchema) := by
  obtain ⟨sd, hsd'⟩ := flattenMachineTypeScratchDisks_isSome _ hsd
  obtain ⟨acc, hacc'⟩ := flattenMachineTypeAccelerators_isSome _ hacc
  rw [read_success env d ua p z m mt hua hp hz hm hget hsd hacc hset]
  refine ⟨rfl, sd, acc, hsd', hacc', ?_⟩
  simp [fieldWrites, writeFields, hsd', hacc', ResourceData.get, List.lookup]

/-- C6, on the example of the spec: the record named `n1-standard-4` with 4
CPUs, 15360 MB and empty sequences gives `guest_cpus` 4, `memory_mb` 15360
and empty, non-nil `scratch_disks` and `accelerators`. -/
theorem read_copies_fields_witness :
    (dataSourceGoogleComputeMachineTypeRead (exampleEnv (constCatalog exampleMachineType) none)
        { d := exampleData }).1 = Ret.nil ∧
    (dataSourceGoogleComputeMachineTypeRead (exampleEnv (constCatalog exampleMachineType) none)
        { d := exampleData }).2.d.get "guest_cpus" = some (Value.int 4) ∧
    (dataSourceGoogleComputeMachineTypeRead (exampleEnv (constCatalog exampleMachineType) none)
        { d := exampleData }).2.d.get "memory_mb" = some (Value.int 15360) ∧
    (dataSourceGoogleComputeMachineTypeRead (exampleEnv (constCatalog exampleMachineType) none)
        { d := exampleData }).2.d.get "scratch_disks" = some (Value.maps (GoSlice.mk [])) ∧
    (dataSourceGoogleComputeMachineTypeRead (exampleEnv (constCatalog exampleMachineType) none)
        { d := exampleData }).2.d.get "accelerators" = some (Value.maps (GoSlice.mk [])) := by
  obtain ⟨h0, sd, acc, hsd, hacc, -, -, -, -, h5, h6, -, -, -, -, -, h12, h13⟩ :=
    read_copies_fields (exampleEnv (constCatalog exampleMachineType) none)
      exampleData "Terraform" "my-proj" "us-central1-a" "n1-standard-4" exampleMachineType
      rfl rfl rfl (by decide) rfl (by simp [exampleMachineType, GoSlice.toList])
      (by simp [exampleMachineType, GoSlice.toList])
      (no_failed_write_of_setError_none _ _ (fun _ _ _ => rfl))
  have e1 : sd = GoSlice.mk [] := by
    have : flattenMachineTypeScratchDisks exampleMachineType.ScratchDisks = some (GoSlice.mk []) :=
      rfl
    rw [this] at hsd
    exact (Option.some.inj hsd).symm
  have e2 : acc = GoSlice.mk [] := by
    have : flattenMachineTypeAccelerators exampleMachineType.Accelerators = some (GoSlice.mk []) :=
      rfl
    rw [this] at hacc
    exact (Option.some.inj hacc).symm
  subst e1 e2
  exact ⟨h0, h5, h6, h12, h13⟩

/-- C7, where the code departs from it: when the write of
`maximum_persistent_disks` (or of `maximum_persistent_disks_size_gb`) is the
first to fail, with error `boom`, the read operation stops at that write and
returns an error, but the message spells the field `maxium_persistent_disks`
(`maxium_persistent_disks_size_gb`), which is not the name of the field that
was being written. -/
theorem read_error_misspells_maximum_persistent_disks :
    (dataSourceGoogleComputeMachineTypeRead
        (exampleEnv (constCatalog exampleMachineType) (some "maximum_persistent_disks"))
        { d := exampleData }).1 =
      Ret.err (Errorf "Error setting maxium_persistent_disks: boom") ∧
    (dataSourceGoogleComputeMachineTypeRead
        (exampleEnv (constCatalog exampleMachineType) (some "maximum_persistent_disks"))
        { d := exampleData }).2.trace.getLast? =
      some (Event.Set "maximum_persistent_disks" (Value.int 0) (some (Errorf "boom"))) ∧
    "Error setting maxium_persistent_disks: boom" ≠
      "Error setting " ++ "maximum_persistent_disks" ++ ": " ++ "boom" ∧
    (dataSourceGoogleComputeMachineTypeRead
        (exampleEnv (constCatalog exampleMachineType) (some "maximum_persistent_disks_size_gb"))
        { d := exampleData }).1 =
      Ret.err (Errorf "Error setting maxium_persistent_disks_size_gb: boom") ∧
    (dataSourceGoogleComputeMachineTypeRead
        (exampleEnv (constCatalog exampleMachineType) (some "maximum_persistent_disks_size_gb"))
        { d := exampleData }).2.trace.getLast? =
      some (Event.Set "maximum_persistent_disks_size_gb" (Value.int 0) (some (Errorf "boom"))) ∧
    "Error setting maxium_persistent_disks_size_gb: boom" ≠
      "Error setting " ++ "maximum_persistent_disks_size_gb" ++ ": " ++ "boom" :=
  ⟨by decide, by decide, by decide, by decide, by decide, by decide⟩

/-- C9, where the code departs from it: in the schema returned by
`dataSourceGoogleComputeMachineType`, `project` and `zone` are optional
strings, but `machine_type` is a computed string that is neither required nor
optional. -/
theorem schema_machine_type_not_required :
    dataSourceGoogleComputeMachineType.schemaOf "project" =
      some { Type_ := ValueType.TypeString, Optional := true, Computed := true } ∧
    dataSourceGoogleComputeMachineType.schemaOf "zone" =
      some { Type_ := ValueType.TypeString, Optional := true, Computed := true } ∧
    dataSourceGoogleComputeMachineType.schemaOf "machine_type" =
      some { Type_ := ValueType.TypeString, Optional := false, Required := false,
             Computed := true } :=
  ⟨by decide, by decide, by decide⟩

/-- C10, where the code departs from it: the schema declares exactly the keys
`project`, `zone` and `machine_type`, while a successful run of the read
operation writes thirteen keys, eleven of which the schema does not declare. -/
theorem read_writes_undeclared_keys :
    dataSourceGoogleComputeMachineType.keys = ["project", "zone", "machine_type"] ∧
    writtenKeys (dataSourceGoogleComputeMachineTypeRead
        (exampleEnv (constCatalog exampleMachineType) none) { d := exampleData }).2.trace =
      ["project", "name", "description", "guest_cpus", "memory_mb", "image_space_gb",
       "scratch_disks", "maximum_persistent_disks", "maximum_persistent_disks_size_gb",
       "zone", "self_link", "is_shared_cpu", "accelerators"] ∧
    (writtenKeys (dataSourceGoogleComputeMachineTypeRead
        (exampleEnv (constCatalog exampleMachineType) none) { d := exampleData }).2.trace).filter
        (fun key => (dataSourceGoogleComputeMachineType.schemaOf key).isNone) =
      ["name", "description", "guest_cpus", "memory_mb", "image_space_gb",
       "scratch_disks", "maximum_persistent_disks", "maximum_persistent_disks_size_gb",
       "self_link", "is_shared_cpu", "accelerators"] :=
  ⟨by decide, by decide, by decide⟩

/-- C8: in every run the read operation calls `d.SetId` at most once; it
calls it if and only if user agent, project, zone and `machine_type` resolve,
the lookup returns a record and thirteen writes went through; the call is the
last event of the run, after those thirteen writes, and the run returns nil.
Whenever a write fails, the read operation returns an error, the ID is what
it was before the call, and every field written before the failing write
holds its new value. -/
theorem setId_last_and_only_on_success (env : Env) (d : ResourceData) :
    ((dataSourceGoogleComputeMachineTypeRead env { d := d }).2.trace.filter
        Event.isSetId).length ≤ 1 ∧
    ((∃ id, Event.SetId id ∈ (dataSourceGoogleComputeMachineTypeRead env { d := d }).2.trace) ↔
      ∃ ua p z m mt, env.GenerateUserAgentString d = .ok ua ∧ env.GetProject d = .ok p ∧
        env.GetZone d = .ok z ∧ d.GetOk "machine_type" = (Value.str m, true) ∧
        env.MachineTypesGet ua p z m = .ok mt ∧
        ((dataSourceGoogleComputeMachineTypeRead env { d := d }).2.trace.filter
          Event.isSetOk).length = 13) ∧
    (∀ id, Event.SetId id ∈ (dataSourceGoogleComputeMachineTypeRead env { d := d }).2.trace →
      (dataSourceGoogleComputeMachineTypeRead env { d := d }).1 = Ret.nil ∧
      (dataSourceGoogleComputeMachineTypeRead env { d := d }).2.d.id = id ∧
      ∃ evs, (dataSourceGoogleComputeMachineTypeRead env { d := d }).2.trace =
          evs ++ [Event.SetId id] ∧
        (evs.filter Event.isSetOk).length = 13) ∧
    (∀ key value err, Event.Set key value (some err) ∈
        (dataSourceGoogleComputeMachineTypeRead env { d := d }).2.trace →
      (∃ e, (dataSourceGoogleComputeMachineTypeRead env { d := d }).1 = Ret.err e) ∧
      (dataSourceGoogleComputeMachineTypeRead env { d := d }).2.d.id = d.id ∧
      ∀ k v, Event.Set k v none ∈
          (dataSourceGoogleComputeMachineTypeRead env { d := d }).2.trace →
        (dataSourceGoogleComputeMachineTypeRead env { d := d }).2.d.get k = some v) := by
  rcases read_cases env d with h0 | ⟨ua, p, z, m, e, -, -, -, -, -, htr⟩ |
    ⟨ua, p, z, m, mt, hua, hp, hz, hm, hget⟩
  · rw [h0]
    simp
  · rw [htr]
    simp [Event.isSetId, Event.isSetOk]
  · obtain ⟨pre, rest, hws, hpre, hfields, hcases⟩ :=
      read_lookup_shape env d ua p z m mt hua hp hz hm hget
    have hlen : pre.length + rest.length = 13 := by
      have := congrArg List.length hws
      simpa [fieldWrites] using this.symm
    have hwe := writeEvents_length pre hpre
    generalize dataSourceGoogleComputeMachineTypeRead env { d := d } = R at *
    rcases hcases with ⟨hrest, hret, hid, htr⟩ |
      ⟨fw, post, v, err, hrest, hv, -, hret, hid, htr⟩ | ⟨fw, post, hrest, hv, hret, hid, htr⟩
    · subst hrest
      simp only [List.length_nil, Nat.add_zero] at hlen
      have hf1 : (R.2.trace.filter Event.isSetId).length = 1 := by
        rw [htr]
        simp [List.filter_cons, List.filter_append, writeEvents_filter_isSetId, Event.isSetId]
      have hf2 : (R.2.trace.filter Event.isSetOk).length = 13 := by
        rw [htr]
        simp [List.filter_cons, List.filter_append, writeEvents_filter_isSetOk, Event.isSetOk,
          hwe, hlen]
      have hmem : ∀ id, Event.SetId id ∈ R.2.trace →
          id = "projects/" ++ p ++ "/zones/" ++ z ++ "/machineTypes/" ++ mt.Name := by
        intro id h
        rw [htr] at h
        simpa [setId_not_mem_writeEvents] using h
      refine ⟨by omega, ⟨fun _ => ⟨ua, p, z, m, mt, hua, hp, hz, hm, hget, hf2⟩,
        fun _ => ⟨"projects/" ++ p ++ "/zones/" ++ z ++ "/machineTypes/" ++ mt.Name,
          by rw [htr]; simp⟩⟩, ?_, ?_⟩
      · intro id h
        have hid' := hmem id h
        subst hid'
        refine ⟨hret, hid, Event.Get ua p z m :: writeEvents pre, by rw [htr], ?_⟩
        simp [List.filter_cons, writeEvents_filter_isSetOk, Event.isSetOk, hwe, hlen]
      · intro key value err h
        rw [htr] at h
        simp [failed_not_mem_writeEvents] at h
    · subst hrest
      simp only [List.length_cons] at hlen
      have hf1 : R.2.trace.filter Event.isSetId = [] := by
        rw [htr]
        simp [List.filter_cons, List.filter_append, writeEvents_filter_isSetId, Event.isSetId]
      have hf2 : (R.2.trace.filter Event.isSetOk).length = pre.length := by
        rw [htr]
        simp [List.filter_cons, List.filter_append, writeEvents_filter_isSetOk, Event.isSetOk,
          hwe]
      have hno : ∀ id, Event.SetId id ∉ R.2.trace := by
        intro id h
        rw [htr] at h
        simp [setId_not_mem_writeEvents] at h
      refine ⟨by simp [hf1], ⟨fun ⟨id, h⟩ => absurd h (hno id),
        fun ⟨_, _, _, _, _, _, _, _, _, _, h⟩ => by omega⟩,
        fun id h => absurd h (hno id), ?_⟩
      intro key value err' _
      refine ⟨⟨_, hret⟩, hid, ?_⟩
      intro k v' hk
      rw [htr] at hk
      have hk' : Event.Set k v' none ∈ writeEvents pre := by simpa using hk
      have hkv := mem_writeFields_of_mem_writeEvents pre k v' hk'
      have hnd : (((writeFields pre).reverse).map Prod.fst).Nodup := by
        rw [List.map_reverse, List.nodup_reverse]
        have hsub : ((writeFields pre).map Prod.fst).Sublist
            ((fieldWrites env p z mt).map FieldWrite.key) := by
          rw [hws, List.map_append]
          exact (writeFields_keys_sublist pre).trans (List.sublist_append_left _ _)
        exact hsub.nodup (fieldWrites_keys_nodup env p z mt)
      simp only [ResourceData.get, hfields]
      exact lookup_of_mem_nodup _ _ k v' hnd (List.mem_reverse.2 hkv)
    · subst hrest
      simp only [List.length_cons] at hlen
      have hf1 : R.2.trace.filter Event.isSetId = [] := by
        rw [htr]
        simp [List.filter_cons, writeEvents_filter_isSetId, Event.isSetId]
      have hf2 : (R.2.trace.filter Event.isSetOk).length = pre.length := by
        rw [htr]
        simp [List.filter_cons, writeEvents_filter_isSetOk, Event.isSetOk, hwe]
      have hno : ∀ id, Event.SetId id ∉ R.2.trace := by
        intro id h
        rw [htr] at h
        simp [setId_not_mem_writeEvents] at h
      refine ⟨by simp [hf1], ⟨fun ⟨id, h⟩ => absurd h (hno id),
        fun ⟨_, _, _, _, _, _, _, _, _, _, h⟩ => by omega⟩,
        fun id h => absurd h (hno id), ?_⟩
      intro key value err' h
      rw [htr] at h
      simp [failed_not_mem_writeEvents] at h

/-- C8, on a run whose write of `zone` fails: the ID is what it was before
the call and the field `name`, written earlier, holds its new value. -/
theorem setId_last_and_only_on_success_witness :
    (dataSourceGoogleComputeMachineTypeRead
        (exampleEnv (constCatalog exampleMachineType) (some "zone"))
        { d := exampleData }).2.d.id = exampleData.id ∧
    (dataSourceGoogleComputeMachineTypeRead
        (exampleEnv (constCatalog exampleMachineType) (some "zone"))
        { d := exampleData }).2.d.get "name" = some (Value.str "n1-standard-4") :=
  have h := (setId_last_and_only_on_success
    (exampleEnv (constCatalog exampleMachineType) (some "zone")) exampleData).2.2.2
    "zone" (Value.str "us-central1-a") (Errorf "boom") (by decide)
  ⟨h.2.1, h.2.2 "name" (Value.str "n1-standard-4") (by decide)⟩

end Google
